import Mathlib

/-!
Shallow embedding of the mkv_transcoder job-queue core
(src/mkv_transcoder/job_queue.py, src/mkv_transcoder/transcoder.py,
src/worker.py) and proofs about the specification claims.

Conventions of the embedding:
* A persisted job record is the Lean structure `Job`; keys that the Python
  code only adds later (claimed_at, completed_at) are `Option` fields,
  `none` standing for an absent key.
* Timestamps (`time.time()`) and the uuid chosen by `add_job` are passed in
  explicitly, making every operation a pure function of its inputs.
* A Python dict used as an ordered mapping (the per-job `steps` dict) is an
  association list `List (String × String)`; insertion order is preserved
  and keys are unique in every record the code builds.
* In-place mutation of one record inside `queue['jobs']` is modelled by
  tagging records with their list position (`List.enum`) and writing the
  updated record back with `List.set`.
* `sorted(queue['jobs'], key=lambda j: j['added_at'])` is a stable sort by
  `added_at`.  It is modelled by `List.insertionSort` on the enumerated
  list, which is likewise stable (Mathlib's `pair_sublist_insertionSort`),
  so both sorts agree on every input.
-/

/-- One job record of the queue document, mirroring the dict literal built
by JobQueue.add_job plus the keys added later by
claim_next_available_job (claimed_at) and update_job_status
(completed_at). -/
structure Job where
  id : String
  input_path : String
  job_type : String
  status : String
  worker_id : Option String
  output_path : Option String
  added_at : Nat
  retries : Nat
  steps : List (String × String)
  claimed_at : Option Nat
  completed_at : Option Nat
deriving DecidableEq

/-- The step dict created for job_type 'dolby_vision' (job_queue.py lines 60-70). -/
def dolbyVisionSteps : List (String × String) :=
  [("copy_source", "pending"),
   ("get_metadata", "pending"),
   ("extract_p7", "pending"),
   ("convert_p8", "pending"),
   ("extract_rpu", "pending"),
   ("reencode_x265", "pending"),
   ("inject_rpu", "pending"),
   ("remux_final", "pending"),
   ("move_final", "pending")]

/-- The step dict created for job_type 'standard' (job_queue.py lines 73-78). -/
def standardSteps : List (String × String) :=
  [("copy_source", "pending"),
   ("get_metadata", "pending"),
   ("reencode_x265", "pending"),
   ("move_final", "pending")]

/-- The new_job record built by JobQueue.add_job (job_queue.py lines 83-93).
The uuid and the time.time() value are passed in as newId and now. -/
def newJob (input_path job_type newId : String) (now : Nat)
    (steps : List (String × String)) : Job :=
  { id := newId
    input_path := input_path
    job_type := job_type
    status := "pending"
    worker_id := none
    output_path := none
    added_at := now
    retries := 0
    steps := steps
    claimed_at := none
    completed_at := none }

/-- The keys of the new_job dict literal in JobQueue.add_job
(job_queue.py lines 83-93), in source order. -/
def addJobFieldNames : List String :=
  ["id", "input_path", "job_type", "status", "worker_id", "output_path",
   "added_at", "retries", "steps"]

/-- The _add_job_op closure of JobQueue.add_job (job_queue.py lines 55-95),
acting on the jobs collection.  Returns the new collection and the boolean
result of the transaction. -/
def addJobOp (input_path job_type newId : String) (now : Nat)
    (jobs : List Job) : List Job × Bool :=
  if jobs.any (fun j => j.input_path == input_path) then
    (jobs, false)
  else if job_type == "dolby_vision" then
    (jobs ++ [newJob input_path job_type newId now dolbyVisionSteps], true)
  else if job_type == "standard" then
    (jobs ++ [newJob input_path job_type newId now standardSteps], true)
  else
    (jobs, false)

/-- The quarantine test applied to each record at the start of
claim_next_available_job (job_queue.py lines 102-105): a 'failed' record
with retries >= max_retries becomes 'failed_permanent'. -/
def quarantineFlip (max_retries : Nat) (j : Job) : Job :=
  if j.status = "failed" ∧ max_retries ≤ j.retries then
    { j with status := "failed_permanent" }
  else j

/-- The in-place quarantine loop over all records (job_queue.py lines 102-105). -/
def quarantineSweep (max_retries : Nat) (jobs : List Job) : List Job :=
  jobs.map (quarantineFlip max_retries)

/-- The sort key of job_queue.py line 108: compare records by added_at. -/
def claimLE (a b : Nat × Job) : Prop :=
  a.2.added_at ≤ b.2.added_at

instance : DecidableRel claimLE :=
  fun a b => Nat.decLe a.2.added_at b.2.added_at

instance : IsTotal (Nat × Job) claimLE :=
  ⟨fun a b => Nat.le_total a.2.added_at b.2.added_at⟩

instance : IsTrans (Nat × Job) claimLE :=
  ⟨fun _ _ _ h h' => Nat.le_trans h h'⟩

/-- The eligibility test of job_queue.py line 109:
status in ['pending', 'failed']. -/
def eligibleStatus (s : String) : Bool :=
  s == "pending" || s == "failed"

/-- The field updates applied to the selected record
(job_queue.py lines 110-113). -/
def claimUpdate (worker_id : String) (now : Nat) (j : Job) : Job :=
  { j with status := "running"
           worker_id := some worker_id
           claimed_at := some now
           retries := j.retries + 1 }

/-- The _get_and_update_op closure of JobQueue.claim_next_available_job
(job_queue.py lines 100-115): quarantine sweep, then walk the records in
stable added_at order and claim the first one whose status is 'pending' or
'failed'.  Records are tagged with their list position so that the claimed
record (mutated in place in Python) can be written back by index. -/
def claim_next_available_job (worker_id : String) (now max_retries : Nat)
    (jobs : List Job) : List Job × Option Job :=
  match (((quarantineSweep max_retries jobs).enum).insertionSort claimLE).find?
      (fun p => eligibleStatus p.2.status) with
  | none => (quarantineSweep max_retries jobs, none)
  | some (i, j) =>
    ((quarantineSweep max_retries jobs).set i (claimUpdate worker_id now j),
     some (claimUpdate worker_id now j))

/-- Helper shared by the update and reset operations: apply f to the first
record satisfying p (Python iterates queue['jobs'] and returns True inside
the loop), leaving all other records unchanged; the boolean tells whether a
record was found. -/
def updateFirstMatching (p : Job → Bool) (f : Job → Job) :
    List Job → List Job × Bool
  | [] => ([], false)
  | j :: rest =>
    if p j then (f j :: rest, true)
    else
      let r := updateFirstMatching p f rest
      (j :: r.1, r.2)

/-- The _update_job_op closure of JobQueue.update_job_status
(job_queue.py lines 120-128): find the record by id, overwrite its status,
overwrite output_path only when one was passed, and stamp completed_at. -/
def update_job_status (job_id status : String) (output_path : Option String)
    (now : Nat) (jobs : List Job) : List Job × Bool :=
  updateFirstMatching (fun j => j.id == job_id)
    (fun j =>
      { j with status := status
               output_path := match output_path with
                 | some p => some p
                 | none => j.output_path
               completed_at := some now }) jobs

/-- Writing one key of a steps dict (job['steps'][step] = status).  Keys
are unique in every record the code builds, so updating every matching key
of the association list coincides with the dict assignment. -/
def setStep (steps : List (String × String)) (name v : String) :
    List (String × String) :=
  steps.map (fun p => if p.1 == name then (p.1, v) else p)

/-- The _update_step_op closure of JobQueue.update_job_step_status
(job_queue.py lines 133-139).  Python only returns from inside the loop
when both the id matches and the step key exists; otherwise the loop moves
on, so a matching record without the key is skipped. -/
def update_job_step_status (job_id step status : String) :
    List Job → List Job × Bool
  | [] => ([], false)
  | j :: rest =>
    if j.id == job_id && (j.steps.lookup step).isSome then
      ({ j with steps := setStep j.steps step status } :: rest, true)
    else
      let r := update_job_step_status job_id step status rest
      (j :: r.1, r.2)

/-- The fixed step_order list of JobQueue.reset_job_progress and
JobQueue.force_reset_job_progress (job_queue.py lines 150-160): the nine
dolby_vision step names, regardless of the target job's own job_type. -/
def stepOrder : List String :=
  ["copy_source", "get_metadata", "extract_p7", "convert_p8", "extract_rpu",
   "reencode_x265", "inject_rpu", "remux_final", "move_final"]

/-- The reset loop of job_queue.py lines 170-173: for every name of
step_order from position from_step_index on (1-based), set the step to
'pending' when the job has that key. -/
def resetStepsFrom (from_step_index : Nat) (steps : List (String × String)) :
    List (String × String) :=
  (stepOrder.drop (from_step_index - 1)).foldl
    (fun st n => setStep st n "pending") steps

/-- The per-record mutation of reset_job_progress (job_queue.py lines
169-179): reset the selected steps, then force status 'failed' and
retries 0, regardless of a prior 'failed_permanent' status. -/
def resetJobFun (from_step_index : Nat) (j : Job) : Job :=
  { j with steps := resetStepsFrom from_step_index j.steps
           status := "failed"
           retries := 0 }

/-- JobQueue.reset_job_progress (job_queue.py lines 148-182).  The index
check happens before the transaction; an out-of-range index returns False
with the queue untouched. -/
def reset_job_progress (job_id : String) (from_step_index : Nat)
    (jobs : List Job) : List Job × Bool :=
  if 1 ≤ from_step_index ∧ from_step_index ≤ stepOrder.length then
    updateFirstMatching (fun j => j.id == job_id) (resetJobFun from_step_index) jobs
  else (jobs, false)

/-- The record selector of JobQueue.force_reset_job_progress
(job_queue.py line 202): match by id or by input_path, a None argument
(Python falsy) never matching. -/
def forceMatches (job_id input_path : Option String) (j : Job) : Bool :=
  (match job_id with
   | some i => j.id == i
   | none => false) ||
  (match input_path with
   | some p => j.input_path == p
   | none => false)

/-- JobQueue.force_reset_job_progress (job_queue.py lines 184-212). -/
def force_reset_job_progress (job_id input_path : Option String)
    (from_step_index : Nat) (jobs : List Job) : List Job × Bool :=
  if 1 ≤ from_step_index ∧ from_step_index ≤ stepOrder.length then
    updateFirstMatching (forceMatches job_id input_path)
      (resetJobFun from_step_index) jobs
  else (jobs, false)

/-- The persisted queue document as JobQueue._execute_with_lock reads it
(job_queue.py lines 26-34): an unparsable file, an empty file, the legacy
bare-list layout, or the current dict layout. -/
inductive Doc where
  | corrupt : Doc
  | empty : Doc
  | legacy : List Job → Doc
  | dict : List Job → Doc
deriving DecidableEq

/-- How _execute_with_lock recovers the jobs collection from the document:
an empty file and both layouts parse; a corrupt document does not. -/
def parseDoc : Doc → Option (List Job)
  | Doc.corrupt => none
  | Doc.empty => some []
  | Doc.legacy js => some js
  | Doc.dict js => some js

/-- JobQueue._execute_with_lock (job_queue.py lines 19-51): parse the
document, run the operation on the jobs collection, persist the dict
layout back, and return the operation's result; on a parse failure, rewrite
the file as an empty valid document and return None instead of
propagating the error. -/
def execute_with_lock {α : Type} (op : List Job → List Job × α) :
    Doc → Doc × Option α
  | d =>
    match parseDoc d with
    | none => (Doc.dict [], none)
    | some js => (Doc.dict (op js).1, some (op js).2)

/-- The environment a pipeline run interacts with: for each step name,
whether the delegated external operation reports success (an exception
inside a step is caught by run_step and recorded exactly like a reported
failure, so it is the same Boolean), whether the step's designated
artifact file exists on disk at skip-check time, and whether
_get_main_video_stream_index finds a stream on the dolby_vision path
(transcoder.py line 446). -/
structure StepEnv where
  opSucceeds : String → Bool
  artifactExists : String → Bool
  videoStreamIndexOk : Bool

/-- The run_step closure of Transcoder.transcode (transcoder.py lines
403-422) acting on the job's steps dict.  Returns the updated steps dict,
the list of step names whose external operation was actually invoked
(empty when the step was skipped), and the step's success.  A step name
absent from the job's dict is skipped with success; a step recorded
'completed' whose artifact still exists is skipped with success;
otherwise the external operation runs and the step status is rewritten
through the queue. -/
def run_step (env : StepEnv) (steps : List (String × String))
    (name : String) : List (String × String) × List String × Bool :=
  if (steps.lookup name).isNone then
    (steps, [], true)
  else if steps.lookup name = some "completed" && env.artifactExists name then
    (steps, [], true)
  else
    let ok := env.opSucceeds name
    (setStep steps name (if ok then "completed" else "failed"), [name], ok)

/-- Transcoder.transcode (transcoder.py lines 385-509, the live code path;
lines 512-586 are unreachable duplicates).  Drives the job-type-specific
step list through run_step, aborting on the first failing step -- except
that the failure branch of 'remux_final' (lines 483-485) only logs and
does not return, so execution falls through to 'move_final'.  Returns the
final steps dict, the concatenated invocation trace, and the overall
result. -/
def transcode (env : StepEnv) (job_type : String)
    (steps0 : List (String × String)) :
    List (String × String) × List String × Bool :=
  let r1 := run_step env steps0 "copy_source"
  if r1.2.2 then
    let r2 := run_step env r1.1 "get_metadata"
    let t2 := r1.2.1 ++ r2.2.1
    if r2.2.2 then
      if job_type == "dolby_vision" then
        if env.videoStreamIndexOk then
          let r3 := run_step env r2.1 "extract_p7"
          let t3 := t2 ++ r3.2.1
          if r3.2.2 then
            let r4 := run_step env r3.1 "convert_p8"
            let t4 := t3 ++ r4.2.1
            if r4.2.2 then
              let r5 := run_step env r4.1 "extract_rpu"
              let t5 := t4 ++ r5.2.1
              if r5.2.2 then
                let r6 := run_step env r5.1 "reencode_x265"
                let t6 := t5 ++ r6.2.1
                if r6.2.2 then
                  let r7 := run_step env r6.1 "inject_rpu"
                  let t7 := t6 ++ r7.2.1
                  if r7.2.2 then
                    let r8 := run_step env r7.1 "remux_final"
                    let t8 := t7 ++ r8.2.1
                    let r9 := run_step env r8.1 "move_final"
                    let t9 := t8 ++ r9.2.1
                    if r9.2.2 then (r9.1, t9, true) else (r9.1, t9, false)
                  else (r7.1, t7, false)
                else (r6.1, t6, false)
              else (r5.1, t5, false)
            else (r4.1, t4, false)
          else (r3.1, t3, false)
        else (r2.1, t2, false)
      else
        let r3 := run_step env r2.1 "reencode_x265"
        let t3 := t2 ++ r3.2.1
        if r3.2.2 then
          let r9 := run_step env r3.1 "move_final"
          let t9 := t3 ++ r9.2.1
          if r9.2.2 then (r9.1, t9, true) else (r9.1, t9, false)
        else (r3.1, t3, false)
    else (r2.1, t2, false)
  else (r1.1, r1.2.1, false)

/-- Every queue state reachable from the initial empty document through the
mutating operations of the operational surface (spec section 6).  The
read-only get_all_file_paths leaves the collection unchanged and is
omitted. -/
inductive Reachable : List Job → Prop where
  | init : Reachable []
  | add (p t i : String) (n : Nat) {q : List Job} :
      Reachable q → Reachable (addJobOp p t i n q).1
  | claim (w : String) (n mr : Nat) {q : List Job} :
      Reachable q → Reachable (claim_next_available_job w n mr q).1
  | updStatus (i s : String) (o : Option String) (n : Nat) {q : List Job} :
      Reachable q → Reachable (update_job_status i s o n q).1
  | updStep (i st s : String) {q : List Job} :
      Reachable q → Reachable (update_job_step_status i st s q).1
  | reset (i : String) (k : Nat) {q : List Job} :
      Reachable q → Reachable (reset_job_progress i k q).1
  | forceReset (i p : Option String) (k : Nat) {q : List Job} :
      Reachable q → Reachable (force_reset_job_progress i p k q).1

/-! ### Sample records used to instantiate the theorems on concrete inputs -/

/-- A freshly enqueued standard job. -/
def samplePendingJob : Job :=
  newJob "/media/movie.mkv" "standard" "job-1" 0 standardSteps

/-- A job that failed once; below the quarantine threshold. -/
def sampleFailedJob : Job :=
  { samplePendingJob with status := "failed", retries := 1 }

/-- Two eligible jobs with equal added_at whose id order is the reverse of
their position order in the queue. -/
def sampleTieJobA : Job :=
  { id := "b", input_path := "/media/a.mkv", job_type := "standard",
    status := "pending", worker_id := none, output_path := none,
    added_at := 5, retries := 0, steps := standardSteps,
    claimed_at := none, completed_at := none }

/-- The second of the two tied jobs; smaller id, later queue position. -/
def sampleTieJobB : Job :=
  { sampleTieJobA with id := "a", input_path := "/media/b.mkv" }

/-- A standard job whose four steps are all completed. -/
def sampleCompletedJob : Job :=
  { id := "j", input_path := "/media/c.mkv", job_type := "standard",
    status := "failed_permanent", worker_id := none, output_path := none,
    added_at := 0, retries := 5,
    steps := [("copy_source", "completed"), ("get_metadata", "completed"),
              ("reencode_x265", "completed"), ("move_final", "completed")],
    claimed_at := none, completed_at := none }

/-- The queue state after three claim-and-fail cycles of a single standard
job with max_retries 3: claimed at times 10, 12, 14 and marked failed at
times 11, 13, 15. -/
def threeCycleQueue : List Job :=
  (update_job_status "job-1" "failed" none 15
    (claim_next_available_job "w1" 14 3
      (update_job_status "job-1" "failed" none 13
        (claim_next_available_job "w1" 12 3
          (update_job_status "job-1" "failed" none 11
            (claim_next_available_job "w1" 10 3
              (addJobOp "/media/movie.mkv" "standard" "job-1" 0 []).1).1).1).1).1).1).1

/-- The environment of the remux-failure scenario: every external operation
succeeds except remux_final, no artifact exists yet, and the video stream
probe succeeds. -/
def remuxFailEnv : StepEnv :=
  { opSucceeds := fun n => !(n == "remux_final")
    artifactExists := fun _ => false
    videoStreamIndexOk := true }

/-! ### Helper lemmas -/

theorem mem_of_mem_enum {l : List α} {pr : Nat × α} (h : pr ∈ l.enum) :
    pr.2 ∈ l := by
  obtain ⟨i, a⟩ := pr
  have h' := List.mk_mem_enum_iff_getElem?.mp h
  exact List.getElem?_mem h'

theorem nodup_enum (l : List α) : l.enum.Nodup := by
  have h : (l.enum.map Prod.fst).Nodup := by
    rw [List.enum_map_fst]
    exact List.nodup_range _
  exact h.of_map

theorem pair_sublist_of_getElem? :
    ∀ (l : List α) (i j : Nat) (a b : α), i < j →
      l[i]? = some a → l[j]? = some b → List.Sublist [a, b] l := by
  intro l
  induction l with
  | nil => intro i j a b _ ha _; simp at ha
  | cons x tl ih =>
    intro i j a b hij ha hb
    match i, j with
    | 0, j + 1 =>
      simp at ha
      subst ha
      have hbm : b ∈ tl := List.getElem?_mem (by simpa using hb)
      exact List.Sublist.cons₂ _ (List.singleton_sublist.mpr hbm)
    | i + 1, j + 1 =>
      have h := ih i j a b (by omega) (by simpa using ha) (by simpa using hb)
      exact h.cons _

theorem find?_first_pair {p : α → Bool} :
    ∀ {m : List α} {x y : α}, m.Nodup → List.Sublist [x, y] m → p x = true →
      m.find? p = some y → x = y := by
  intro m
  induction m with
  | nil => intro x y _ hs _ _; simp at hs
  | cons a m' ih =>
    intro x y hnd hs hx hfind
    rw [List.find?_cons] at hfind
    cases hpa : p a with
    | true =>
      rw [hpa] at hfind
      injection hfind with hay
      cases hs with
      | cons₂ _ h =>
        have hym : y ∈ m' := List.singleton_sublist.mp h
        rw [hay] at hnd
        exact absurd hym (List.nodup_cons.mp hnd).1
      | cons _ h =>
        have hym : y ∈ m' := h.subset (by simp)
        rw [hay] at hnd
        exact absurd hym (List.nodup_cons.mp hnd).1
    | false =>
      rw [hpa] at hfind
      cases hs with
      | cons₂ _ h =>
        rw [hpa] at hx
        exact absurd hx (by simp)
      | cons _ h =>
        exact ih (List.nodup_cons.mp hnd).2 h hx hfind

theorem lookup_setStep (st : List (String × String)) (n v name : String) :
    (setStep st n v).lookup name =
      if name = n then (st.lookup name).map (fun _ => v)
      else st.lookup name := by
  induction st with
  | nil => by_cases h : name = n <;> simp [setStep, h]
  | cons hd tl ih =>
    obtain ⟨k, s⟩ := hd
    by_cases hkn : k = n
    · subst hkn
      by_cases hnk : name = k
      · subst hnk
        simp [setStep, List.lookup_cons]
      · have hb : (name == k) = false := by simp [hnk]
        simp only [setStep, List.map_cons, beq_self_eq_true, if_true,
          List.lookup_cons, hb]
        simpa [setStep, hnk] using ih
    · by_cases hnk : name = k
      · have hbk : (k == n) = false := by simp [hkn]
        have hbn : (name == k) = true := by simp [hnk]
        have hnn : ¬name = n := by rw [hnk]; exact hkn
        simp only [setStep, List.map_cons, hbk, Bool.false_eq_true, if_false,
          hnn]
        rw [List.lookup_cons, hbn, List.lookup_cons, hbn]
      · have hb : (name == k) = false := by simp [hnk]
        have hbk : (k == n) = false := by simp [hkn]
        simp only [setStep, List.map_cons, hbk, Bool.false_eq_true, if_false,
          List.lookup_cons, hb]
        simpa [setStep] using ih

theorem lookup_foldl_setStep :
    ∀ (L : List String) (st : List (String × String)) (name : String),
      (L.foldl (fun st n => setStep st n "pending") st).lookup name =
        if name ∈ L then (st.lookup name).map (fun _ => "pending")
        else st.lookup name := by
  intro L
  induction L with
  | nil => intro st name; simp
  | cons n L' ih =>
    intro st name
    rw [List.foldl_cons, ih]
    by_cases hL : name ∈ L'
    · simp only [hL, if_true, List.mem_cons, or_true]
      rw [lookup_setStep]
      by_cases hn : name = n
      · rw [if_pos hn, Option.map_map]
        exact rfl
      · simp [hn]
    · simp only [hL, if_false]
      rw [lookup_setStep]
      by_cases hn : name = n
      · simp [hn, hL]
      · simp [hn, hL]

theorem updateFirstMatching_of_none {p : Job → Bool} {f : Job → Job} :
    ∀ {q : List Job}, (∀ j ∈ q, p j = false) →
      updateFirstMatching p f q = (q, false) := by
  intro q
  induction q with
  | nil => intro _; rfl
  | cons j rest ih =>
    intro h
    have hj := h j (by simp)
    simp only [updateFirstMatching, hj, Bool.false_eq_true, if_false]
    rw [ih (fun x hx => h x (by simp [hx]))]

theorem updateFirstMatching_append {p : Job → Bool} {f : Job → Job} :
    ∀ (l₁ : List Job) (j : Job) (l₂ : List Job),
      (∀ x ∈ l₁, p x = false) → p j = true →
      updateFirstMatching p f (l₁ ++ j :: l₂) = (l₁ ++ f j :: l₂, true) := by
  intro l₁
  induction l₁ with
  | nil =>
    intro j l₂ _ hj
    simp [updateFirstMatching, hj]
  | cons x tl ih =>
    intro j l₂ h₁ hj
    have hx := h₁ x (by simp)
    have ihr := ih j l₂ (fun y hy => h₁ y (by simp [hy])) hj
    simp only [List.cons_append, updateFirstMatching, hx, Bool.false_eq_true,
      if_false, List.append_eq]
    rw [ihr]

theorem updateFirstMatching_map_steps {p : Job → Bool} {f : Job → Job}
    (hf : ∀ j, (f j).steps = j.steps) :
    ∀ q : List Job,
      (updateFirstMatching p f q).1.map Job.steps = q.map Job.steps := by
  intro q
  induction q with
  | nil => rfl
  | cons j rest ih =>
    by_cases hj : p j
    · simp [updateFirstMatching, hj, hf]
    · simp only [updateFirstMatching, hj, Bool.false_eq_true, if_false,
        List.map_cons]
      rw [ih]

theorem quarantineSweep_failed_lt {mr : Nat} {q : List Job} {j : Job}
    (hm : j ∈ quarantineSweep mr q) (hs : j.status = "failed") :
    j.retries < mr := by
  obtain ⟨j₀, _, hflip⟩ := List.mem_map.mp hm
  unfold quarantineFlip at hflip
  by_cases hc : j₀.status = "failed" ∧ mr ≤ j₀.retries
  · rw [if_pos hc] at hflip
    rw [← hflip] at hs
    simp at hs
  · rw [if_neg hc] at hflip
    rw [← hflip] at hs ⊢
    by_contra hge
    exact hc ⟨hs, Nat.le_of_not_lt hge⟩

/-! ### Claim theorems -/

/-- C8: if the persisted queue document cannot be parsed, the transaction
primitive does not propagate the parse error: it resets the store to the
empty valid document and returns no result, and the next transaction
executed after the corruption runs its operation against an empty job
collection and succeeds. -/
theorem C8_corruption_recovery :
    ∀ (α β : Type) (op : List Job → List Job × α)
      (op2 : List Job → List Job × β),
      execute_with_lock op Doc.corrupt = (Doc.dict [], none) ∧
      execute_with_lock op2 (execute_with_lock op Doc.corrupt).1 =
        (Doc.dict (op2 []).1, some (op2 []).2) := by
  intro α β op op2
  exact ⟨rfl, rfl⟩

/-- C9 counterexample: the record created by add_job has no field named
created_at; its creation timestamp key is named added_at
(job_queue.py line 90). -/
theorem C9_created_at_counterexample :
    "created_at" ∉ addJobFieldNames ∧ "added_at" ∈ addJobFieldNames := by
  decide

/-- C9 (amended): a record created by add_job carries the fields id,
input_path, job_type, status, steps, worker_id, retries, output_path and
the creation timestamp field added_at -- not created_at; claimed_at is
first written by the claim operation and completed_at by
update_job_status. -/
theorem C9_field_names_amended :
    ("id" ∈ addJobFieldNames ∧ "input_path" ∈ addJobFieldNames ∧
     "job_type" ∈ addJobFieldNames ∧ "status" ∈ addJobFieldNames ∧
     "steps" ∈ addJobFieldNames ∧ "worker_id" ∈ addJobFieldNames ∧
     "retries" ∈ addJobFieldNames ∧ "output_path" ∈ addJobFieldNames ∧
     "added_at" ∈ addJobFieldNames ∧ "created_at" ∉ addJobFieldNames) ∧
    (∀ (p t i : String) (n : Nat) (st : List (String × String)),
      (newJob p t i n st).added_at = n ∧
      (newJob p t i n st).claimed_at = none ∧
      (newJob p t i n st).completed_at = none) ∧
    (∀ (w : String) (n : Nat) (j : Job),
      (claimUpdate w n j).claimed_at = some n) ∧
    (∀ (s : String) (o : Option String) (n : Nat) (j : Job),
      (update_job_status j.id s o n [j]).1.map Job.completed_at = [some n]) := by
  refine ⟨by decide, fun p t i n st => ⟨rfl, rfl, rfl⟩,
    fun w n j => rfl, fun s o n j => ?_⟩
  simp [update_job_status, updateFirstMatching]

/-- C10: for every input path and every job type other than 'standard' and
'dolby_vision', add_job returns False and leaves the queue unchanged, and
this is the same (queue, False) outcome as the duplicate-path case, so the
result does not distinguish an invalid job type from an existing record. -/
theorem C10_invalid_job_type :
    (∀ (p t i : String) (n : Nat) (q : List Job),
      t ≠ "standard" → t ≠ "dolby_vision" → addJobOp p t i n q = (q, false)) ∧
    (∀ (p t i : String) (n : Nat) (q : List Job),
      (∃ j ∈ q, j.input_path = p) → addJobOp p t i n q = (q, false)) := by
  constructor
  · intro p t i n q h1 h2
    by_cases hany : q.any (fun j => j.input_path == p)
    · simp [addJobOp, hany]
    · simp [addJobOp, hany, h1, h2]
  · intro p t i n q h
    have hany : q.any (fun j => j.input_path == p) = true := by
      obtain ⟨j, hj, hjp⟩ := h
      exact List.any_eq_true.mpr ⟨j, hj, by simp [hjp]⟩
    simp [addJobOp, hany]

/-- C10 witness: an unknown job type 'bogus' on the empty queue, and a
duplicate standard enqueue, both return the unchanged queue with False. -/
theorem C10_invalid_job_type_witness :
    addJobOp "/media/x.mkv" "bogus" "i1" 0 [] = ([], false) ∧
    addJobOp "/media/movie.mkv" "standard" "i2" 1 [samplePendingJob] =
      ([samplePendingJob], false) :=
  ⟨C10_invalid_job_type.1 "/media/x.mkv" "bogus" "i1" 0 [] (by decide)
      (by decide),
   C10_invalid_job_type.2 "/media/movie.mkv" "standard" "i2" 1
      [samplePendingJob] ⟨samplePendingJob, by simp, rfl⟩⟩

/-- C4: for a step X present in a claimed job's steps dict with recorded
status 'completed', run_step skips X without invoking its external
operation when X's designated artifact file exists, and re-invokes the
external operation (updating the step from its outcome) when the artifact
file is missing. -/
theorem C4_resume_skip_redo :
    ∀ (env : StepEnv) (steps : List (String × String)) (X : String),
      steps.lookup X = some "completed" →
      (env.artifactExists X = true → run_step env steps X = (steps, [], true)) ∧
      (env.artifactExists X = false →
        run_step env steps X =
          (setStep steps X
            (if env.opSucceeds X then "completed" else "failed"),
           [X], env.opSucceeds X)) := by
  intro env steps X h
  constructor
  · intro ha
    simp [run_step, h, ha]
  · intro ha
    simp [run_step, h, ha]

/-- C4 witness: a one-step dict recorded 'completed'; with the artifact
present the step is skipped, with the artifact missing the external
operation runs again. -/
theorem C4_resume_skip_redo_witness :
    run_step { opSucceeds := fun _ => true, artifactExists := fun _ => true,
               videoStreamIndexOk := true } [("copy_source", "completed")]
        "copy_source" = ([("copy_source", "completed")], [], true) ∧
    run_step { opSucceeds := fun _ => true, artifactExists := fun _ => false,
               videoStreamIndexOk := true } [("copy_source", "completed")]
        "copy_source" =
      (setStep [("copy_source", "completed")] "copy_source"
        (if true then "completed" else "failed"), ["copy_source"], true) :=
  ⟨(C4_resume_skip_redo _ [("copy_source", "completed")] "copy_source"
      (by decide)).1 rfl,
   (C4_resume_skip_redo _ [("copy_source", "completed")] "copy_source"
      (by decide)).2 rfl⟩

/-- C3 (code-bug evidence): on a dolby_vision job whose steps are all
pending, with every external operation succeeding except remux_final and
no artifacts present, the live pipeline records remux_final as 'failed'
yet still invokes move_final afterwards and returns overall success --
contradicting the contract that the first step failure aborts the
pipeline with no subsequent step executing.  The invocation trace shows
move_final ran after the remux_final failure. -/
theorem C3_remux_failure_not_propagated :
    (transcode remuxFailEnv "dolby_vision" dolbyVisionSteps).2.2 = true ∧
    (transcode remuxFailEnv "dolby_vision" dolbyVisionSteps).1.lookup
        "remux_final" = some "failed" ∧
    (transcode remuxFailEnv "dolby_vision" dolbyVisionSteps).2.1 =
      ["copy_source", "get_metadata", "extract_p7", "convert_p8",
       "extract_rpu", "reencode_x265", "inject_rpu", "remux_final",
       "move_final"] := by
  decide

/-- C5 counterexample: with the unknown job type 'bogus', two add_job calls
on the empty queue leave zero records with the given input_path, not
exactly one. -/
theorem C5_invalid_type_counterexample :
    (addJobOp "/media/x.mkv" "bogus" "i2" 1
        (addJobOp "/media/x.mkv" "bogus" "i1" 0 []).1).1.countP
      (fun j => j.input_path == "/media/x.mkv") = 0 ∧
    addJobOp "/media/x.mkv" "bogus" "i1" 0 [] = ([], false) := by
  decide

/-- C5 (amended): for the two supported job types 'standard' and
'dolby_vision', and from any state satisfying the uniqueness invariant
that at most one record carries input_path p, calling add_job(p, t) twice
leaves exactly one record with input_path p; the second call returns
False and leaves the queue unchanged. -/
theorem C5_idempotent_enqueue_amended :
    ∀ (p t i₁ i₂ : String) (n₁ n₂ : Nat) (q : List Job),
      (t = "standard" ∨ t = "dolby_vision") →
      q.countP (fun j => j.input_path == p) ≤ 1 →
      (addJobOp p t i₂ n₂ (addJobOp p t i₁ n₁ q).1).1.countP
          (fun j => j.input_path == p) = 1 ∧
      (addJobOp p t i₂ n₂ (addJobOp p t i₁ n₁ q).1).2 = false ∧
      (addJobOp p t i₂ n₂ (addJobOp p t i₁ n₁ q).1).1 =
        (addJobOp p t i₁ n₁ q).1 := by
  intro p t i₁ i₂ n₁ n₂ q ht hle
  by_cases hany : q.any (fun j => j.input_path == p) = true
  · have h1 : addJobOp p t i₁ n₁ q = (q, false) := by simp [addJobOp, hany]
    have hpos : 0 < q.countP (fun j => j.input_path == p) := by
      obtain ⟨j, hj, hjp⟩ := List.any_eq_true.mp hany
      exact List.countP_pos_iff.mpr ⟨j, hj, hjp⟩
    have h2 : addJobOp p t i₂ n₂ q = (q, false) := by simp [addJobOp, hany]
    have hfix : (addJobOp p t i₁ n₁ q).1 = q := by rw [h1]
    rw [hfix, h2]
    refine ⟨?_, rfl, rfl⟩
    show q.countP (fun j => j.input_path == p) = 1
    omega
  · have hany' : q.any (fun j => j.input_path == p) = false :=
      Bool.eq_false_iff.mpr hany
    have h0 : q.countP (fun j => j.input_path == p) = 0 :=
      List.countP_eq_zero.mpr (List.any_eq_false.mp hany')
    have key :
        ∀ st : List (String × String),
          (addJobOp p t i₂ n₂ (q ++ [newJob p t i₁ n₁ st])).1.countP
              (fun j => j.input_path == p) = 1 ∧
          (addJobOp p t i₂ n₂ (q ++ [newJob p t i₁ n₁ st])).2 = false ∧
          (addJobOp p t i₂ n₂ (q ++ [newJob p t i₁ n₁ st])).1 =
            q ++ [newJob p t i₁ n₁ st] := by
      intro st
      have hany2 : (q ++ [newJob p t i₁ n₁ st]).any
          (fun j => j.input_path == p) = true :=
        List.any_eq_true.mpr
          ⟨newJob p t i₁ n₁ st, by simp, by simp [newJob]⟩
      have hcnt : (q ++ [newJob p t i₁ n₁ st]).countP
          (fun j => j.input_path == p) = 1 := by
        rw [List.countP_append, h0]
        simp [newJob]
      simp [addJobOp, hany2, hcnt]
    rcases ht with rfl | rfl
    · have h1 : (addJobOp p "standard" i₁ n₁ q).1 =
          q ++ [newJob p "standard" i₁ n₁ standardSteps] := by
        simp [addJobOp, hany']
      rw [h1]
      exact key standardSteps
    · have h1 : (addJobOp p "dolby_vision" i₁ n₁ q).1 =
          q ++ [newJob p "dolby_vision" i₁ n₁ dolbyVisionSteps] := by
        simp [addJobOp, hany']
      rw [h1]
      exact key dolbyVisionSteps

/-- C5 witness: two standard enqueues of the same path on the empty queue
leave exactly one record; the second returns False and changes nothing. -/
theorem C5_idempotent_enqueue_witness :
    (addJobOp "/media/x.mkv" "standard" "i2" 1
        (addJobOp "/media/x.mkv" "standard" "i1" 0 []).1).1.countP
      (fun j => j.input_path == "/media/x.mkv") = 1 ∧
    (addJobOp "/media/x.mkv" "standard" "i2" 1
        (addJobOp "/media/x.mkv" "standard" "i1" 0 []).1).2 = false ∧
    (addJobOp "/media/x.mkv" "standard" "i2" 1
        (addJobOp "/media/x.mkv" "standard" "i1" 0 []).1).1 =
      (addJobOp "/media/x.mkv" "standard" "i1" 0 []).1 :=
  C5_idempotent_enqueue_amended "/media/x.mkv" "standard" "i1" "i2" 0 1 []
    (Or.inl rfl) (by decide)

/-- C6 counterexample: on a standard job with four completed steps,
reset_job_progress(id, 4) rewrites reencode_x265 -- the step at position 3
of the job's own order, before the reset point -- to 'pending', and
reset_job_progress(id, 5), although 5 exceeds the job's own step count of
4, returns True and modifies the job instead of returning False
unchanged. -/
theorem C6_reset_counterexample :
    sampleCompletedJob.steps.lookup "reencode_x265" = some "completed" ∧
    sampleCompletedJob.steps.length = 4 ∧
    ((reset_job_progress "j" 4 [sampleCompletedJob]).1.map
      (fun j => j.steps.lookup "reencode_x265")) = [some "pending"] ∧
    (reset_job_progress "j" 5 [sampleCompletedJob]).2 = true ∧
    (reset_job_progress "j" 5 [sampleCompletedJob]).1 ≠
      [sampleCompletedJob] := by
  decide

/-- C6 (amended): reset_job_progress(job_id, k) validates k against the
fixed nine-name global step order (1 ≤ k ≤ 9), not against the job's own
step count; for a valid k and the first record with the given id it sets
to 'pending' exactly those of the job's steps whose names sit at global
positions ≥ k, leaves its other steps unchanged, sets status 'failed' and
retries 0 even for a previously failed_permanent record, and returns
True; for k outside 1..9 or an unknown id it returns False and changes
nothing. -/
theorem C6_reset_amended :
    ∀ (jid : String) (k : Nat) (q : List Job),
      ((k < 1 ∨ 9 < k) → reset_job_progress jid k q = (q, false)) ∧
      (1 ≤ k → k ≤ 9 →
        ((∀ j ∈ q, j.id ≠ jid) → reset_job_progress jid k q = (q, false)) ∧
        (∀ (l₁ : List Job) (j : Job) (l₂ : List Job),
          q = l₁ ++ j :: l₂ → (∀ x ∈ l₁, x.id ≠ jid) → j.id = jid →
          reset_job_progress jid k q = (l₁ ++ resetJobFun k j :: l₂, true) ∧
          (resetJobFun k j).status = "failed" ∧
          (resetJobFun k j).retries = 0 ∧
          (∀ name : String, (resetJobFun k j).steps.lookup name =
            if name ∈ stepOrder.drop (k - 1)
            then (j.steps.lookup name).map (fun _ => "pending")
            else j.steps.lookup name))) := by
  intro jid k q
  have hlen : stepOrder.length = 9 := rfl
  constructor
  · intro hk
    rw [reset_job_progress, if_neg]
    rintro ⟨h1, h2⟩
    rw [hlen] at h2
    omega
  · intro hk1 hk9
    have hguard : 1 ≤ k ∧ k ≤ stepOrder.length := ⟨hk1, by rw [hlen]; omega⟩
    constructor
    · intro hnone
      rw [reset_job_progress, if_pos hguard]
      exact updateFirstMatching_of_none
        (fun j hj => by simp [hnone j hj])
    · intro l₁ j l₂ hq h₁ hj
      subst hq
      refine ⟨?_, rfl, rfl, ?_⟩
      · rw [reset_job_progress, if_pos hguard]
        exact updateFirstMatching_append l₁ j l₂
          (fun x hx => by simp [h₁ x hx]) (by simp [hj])
      · intro name
        exact lookup_foldl_setStep (stepOrder.drop (k - 1)) j.steps name

/-- C6 witness: resetting the completed standard job from global position
4 succeeds, forces status 'failed' and retries 0, and rewrites
reencode_x265 (global position 6, job position 3) to 'pending'. -/
theorem C6_reset_amended_witness :
    reset_job_progress "j" 4 [sampleCompletedJob] =
      ([resetJobFun 4 sampleCompletedJob], true) ∧
    (resetJobFun 4 sampleCompletedJob).status = "failed" ∧
    (resetJobFun 4 sampleCompletedJob).retries = 0 ∧
    (resetJobFun 4 sampleCompletedJob).steps.lookup "reencode_x265" =
      (if "reencode_x265" ∈ stepOrder.drop (4 - 1)
       then (sampleCompletedJob.steps.lookup "reencode_x265").map
         (fun _ => "pending")
       else sampleCompletedJob.steps.lookup "reencode_x265") := by
  have h := ((C6_reset_amended "j" 4 [sampleCompletedJob]).2 (by omega)
    (by omega)).2 [] sampleCompletedJob [] rfl (by simp) rfl
  exact ⟨h.1, h.2.1, h.2.2.1, h.2.2.2 "reencode_x265"⟩

/-- C7 counterexample: the exposed operations can produce a record with
status 'done' whose steps are not all 'completed': enqueue a standard job,
then call update_job_status(id, 'done', output) -- the resulting reachable
state holds a done record with every step still 'pending'. -/
theorem C7_done_counterexample :
    ∃ q : List Job, Reachable q ∧ ∃ j ∈ q, j.status = "done" ∧
      ∃ pr ∈ j.steps, pr.2 ≠ "completed" := by
  refine ⟨(update_job_status "j1" "done" (some "/media/out.mkv") 5
      (addJobOp "/media/movie.mkv" "standard" "j1" 0 []).1).1, ?_, ?_⟩
  · exact Reachable.updStatus "j1" "done" (some "/media/out.mkv") 5
      (Reachable.add "/media/movie.mkv" "standard" "j1" 0 Reachable.init)
  · decide

/-- C7 (amended): update_job_status overwrites the status field without
inspecting or changing steps, so the exposed operations do not enforce
the done-implies-all-steps-completed invariant: a reachable state contains
a 'done' record with non-completed steps. -/
theorem C7_done_invariant_amended :
    (∀ (jid s : String) (o : Option String) (n : Nat) (q : List Job),
      (update_job_status jid s o n q).1.map Job.steps = q.map Job.steps) ∧
    (∃ q : List Job, Reachable q ∧ ∃ j ∈ q, j.status = "done" ∧
      ∃ pr ∈ j.steps, pr.2 ≠ "completed") := by
  constructor
  · intro jid s o n q
    unfold update_job_status
    refine updateFirstMatching_map_steps ?_ q
    intro j
    rfl
  · refine ⟨(update_job_status "j1" "done" (some "/media/out.mkv") 5
        (addJobOp "/media/movie.mkv" "standard" "j1" 0 []).1).1, ?_, ?_⟩
    · exact Reachable.updStatus "j1" "done" (some "/media/out.mkv") 5
        (Reachable.add "/media/movie.mkv" "standard" "j1" 0 Reachable.init)
    · decide

/-- C2: the quarantine sweep at the start of every claim transaction
leaves no 'failed' record at or above the retry bound (every such record
becomes 'failed_permanent'); a claim only ever returns the update of a
post-sweep record whose status was 'pending' or 'failed' below the bound,
hence never a 'failed_permanent' record; and concretely, with
max_retries = 3, after three claim-and-fail cycles the record holds
retries = 3, and the fourth claim attempt returns the no-job signal while
flipping the record to 'failed_permanent'. -/
theorem C2_quarantine_protocol :
    (∀ (mr : Nat) (q : List Job) (j : Job),
      j ∈ quarantineSweep mr q → j.status = "failed" → j.retries < mr) ∧
    (∀ (w : String) (n mr : Nat) (q : List Job) (r : Job),
      (claim_next_available_job w n mr q).2 = some r →
      ∃ j₀, j₀ ∈ quarantineSweep mr q ∧ r = claimUpdate w n j₀ ∧
        (j₀.status = "pending" ∨ (j₀.status = "failed" ∧ j₀.retries < mr)) ∧
        j₀.status ≠ "failed_permanent") ∧
    (threeCycleQueue.map (fun j => (j.status, j.retries)) = [("failed", 3)] ∧
     (claim_next_available_job "w1" 16 3 threeCycleQueue).2 = none ∧
     (claim_next_available_job "w1" 16 3 threeCycleQueue).1.map Job.status =
       ["failed_permanent"]) := by
  refine ⟨fun mr q j hm hs => quarantineSweep_failed_lt hm hs, ?_, by decide⟩
  intro w n mr q r h
  cases hfind : (((quarantineSweep mr q).enum).insertionSort claimLE).find?
      (fun pr => eligibleStatus pr.2.status) with
  | none =>
    unfold claim_next_available_job at h
    rw [hfind] at h
    simp at h
  | some pr =>
    obtain ⟨i, j⟩ := pr
    unfold claim_next_available_job at h
    rw [hfind] at h
    simp only [Option.some.injEq] at h
    have hel : eligibleStatus j.status = true := by
      have hps := List.find?_some hfind
      simpa using hps
    have hmem : (i, j) ∈ (quarantineSweep mr q).enum := by
      have hm := List.mem_of_find?_eq_some hfind
      simpa using hm
    have hjmem : j ∈ quarantineSweep mr q := mem_of_mem_enum hmem
    have hel' : j.status = "pending" ∨ j.status = "failed" := by
      simpa [eligibleStatus] using hel
    refine ⟨j, hjmem, h.symm, ?_, ?_⟩
    · rcases hel' with hs | hs
      · exact Or.inl hs
      · exact Or.inr ⟨hs, quarantineSweep_failed_lt hjmem hs⟩
    · rcases hel' with hs | hs <;> simp [hs]

/-- C2 witness: the sweep bound applied to a once-failed record, and a
claim on a single pending job, both instantiated concretely. -/
theorem C2_quarantine_protocol_witness :
    sampleFailedJob.retries < 3 ∧
    (∃ j₀, j₀ ∈ quarantineSweep 3 [samplePendingJob] ∧
      claimUpdate "w1" 7 samplePendingJob = claimUpdate "w1" 7 j₀ ∧
      (j₀.status = "pending" ∨ (j₀.status = "failed" ∧ j₀.retries < 3)) ∧
      j₀.status ≠ "failed_permanent") :=
  ⟨C2_quarantine_protocol.1 3 [sampleFailedJob] sampleFailedJob (by decide)
      (by decide),
   C2_quarantine_protocol.2.1 "w1" 7 3 [samplePendingJob]
      (claimUpdate "w1" 7 samplePendingJob) (by decide)⟩

/-- C1 counterexample: two eligible records share added_at = 5; the later
record's id 'a' precedes the earlier record's id 'b' in every id
ordering, yet the claim returns the record with id 'b' -- the one at the
earlier list position -- so ties are not broken by id. -/
theorem C1_tiebreak_counterexample :
    sampleTieJobA.added_at = sampleTieJobB.added_at ∧
    eligibleStatus sampleTieJobA.status = true ∧
    eligibleStatus sampleTieJobB.status = true ∧
    sampleTieJobB.id = "a" ∧ sampleTieJobA.id = "b" ∧
    (claim_next_available_job "w" 100 3
        [sampleTieJobA, sampleTieJobB]).2.map Job.id = some "b" := by
  decide

/-- C1 (amended): claim_next_available_job always answers with either a
record or the no-job signal; when, after the quarantine sweep, some record
has status 'pending' or 'failed', it selects the eligible record with the
least added_at, ties broken by position in the jobs list (Python's stable
sort), not by id; in the same transaction that record -- and only it --
is replaced by its update with status 'running', worker_id, claimed_at
and retries incremented by exactly 1, and the updated record is returned;
when no record qualifies it returns the no-job signal with only the sweep
applied. -/
theorem C1_claim_protocol_amended :
    ∀ (w : String) (now mr : Nat) (jobs : List Job),
      ((∀ j ∈ quarantineSweep mr jobs, eligibleStatus j.status = false) →
        claim_next_available_job w now mr jobs =
          (quarantineSweep mr jobs, none)) ∧
      (∀ (i₀ : Nat) (j₀ : Job), (quarantineSweep mr jobs)[i₀]? = some j₀ →
          eligibleStatus j₀.status = true →
        ∃ (i : Nat) (j : Job), (quarantineSweep mr jobs)[i]? = some j ∧
          eligibleStatus j.status = true ∧
          (∀ (i' : Nat) (j' : Job),
            (quarantineSweep mr jobs)[i']? = some j' →
            eligibleStatus j'.status = true →
            j.added_at ≤ j'.added_at ∧
              (j'.added_at = j.added_at → i ≤ i')) ∧
          claim_next_available_job w now mr jobs =
            ((quarantineSweep mr jobs).set i (claimUpdate w now j),
             some (claimUpdate w now j))) ∧
      (∀ j : Job, claimUpdate w now j =
        { j with status := "running", worker_id := some w,
                 claimed_at := some now, retries := j.retries + 1 }) := by
  intro w now mr jobs
  refine ⟨?_, ?_, fun j => rfl⟩
  · intro hnone
    have hfind : (((quarantineSweep mr jobs).enum).insertionSort
        claimLE).find? (fun pr => eligibleStatus pr.2.status) = none := by
      rw [List.find?_eq_none]
      intro x hx
      have hxm : x ∈ (quarantineSweep mr jobs).enum := by simpa using hx
      have hx2 := hnone x.2 (mem_of_mem_enum hxm)
      simp [hx2]
    unfold claim_next_available_job
    rw [hfind]
  · intro i₀ j₀ h₀ helig
    cases hfind : (((quarantineSweep mr jobs).enum).insertionSort
        claimLE).find? (fun pr => eligibleStatus pr.2.status) with
    | none =>
      exfalso
      rw [List.find?_eq_none] at hfind
      have hmem : (i₀, j₀) ∈ ((quarantineSweep mr jobs).enum).insertionSort
          claimLE := by
        simp [List.mk_mem_enum_iff_getElem?, h₀]
      exact absurd helig (by simpa using hfind _ hmem)
    | some pr =>
      obtain ⟨i, j⟩ := pr
      have hel : eligibleStatus j.status = true := by
        have hps := List.find?_some hfind
        simpa using hps
      have hmem : (i, j) ∈ (quarantineSweep mr jobs).enum := by
        have hm := List.mem_of_find?_eq_some hfind
        simpa using hm
      have hij : (quarantineSweep mr jobs)[i]? = some j :=
        List.mk_mem_enum_iff_getElem?.mp hmem
      refine ⟨i, j, hij, hel, ?_, ?_⟩
      · intro i' j' h' hel'
        have hmem' : (i', j') ∈ ((quarantineSweep mr jobs).enum).insertionSort
            claimLE := by
          simp [List.mk_mem_enum_iff_getElem?, h']
        obtain ⟨hpj, as, bs, hdecomp, hpre⟩ := List.find?_eq_some.mp hfind
        constructor
        · rw [hdecomp] at hmem'
          rcases List.mem_append.mp hmem' with hin | hin
          · exact absurd (by simpa using hpre _ hin) (by simp [hel'])
          · rcases List.mem_cons.mp hin with heq | hin'
            · cases heq
              exact Nat.le_refl _
            · have hsorted : List.Sorted claimLE
                  (((quarantineSweep mr jobs).enum).insertionSort claimLE) :=
                List.sorted_insertionSort claimLE _
              rw [hdecomp] at hsorted
              have hsub : List.Sublist ((i, j) :: bs) (as ++ (i, j) :: bs) :=
                List.sublist_append_right as ((i, j) :: bs)
              have hpw := hsorted.sublist hsub
              exact (List.pairwise_cons.mp hpw).1 _ hin'
        · intro htie
          by_contra hlt
          have hi'i : i' < i := by omega
          have he1 : ((quarantineSweep mr jobs).enum)[i']? =
              some (i', j') := by
            simp [List.getElem?_enum, h']
          have he2 : ((quarantineSweep mr jobs).enum)[i]? = some (i, j) := by
            simp [List.getElem?_enum, hij]
          have hpair : List.Sublist [(i', j'), (i, j)]
              ((quarantineSweep mr jobs).enum) :=
            pair_sublist_of_getElem? _ i' i _ _ hi'i he1 he2
          have hle : claimLE (i', j') (i, j) := Nat.le_of_eq htie
          have hpairS : List.Sublist [(i', j'), (i, j)]
              (((quarantineSweep mr jobs).enum).insertionSort claimLE) :=
            List.pair_sublist_insertionSort hle hpair
          have hnd : ((((quarantineSweep mr jobs).enum).insertionSort
              claimLE)).Nodup :=
            (List.perm_insertionSort claimLE _).nodup_iff.mpr (nodup_enum _)
          have heqpair := find?_first_pair hnd hpairS (by simpa using hel')
            hfind
          have : i' = i := by
            cases heqpair
            rfl
          omega
      · unfold claim_next_available_job
        rw [hfind]

/-- C1 witness: the no-eligible case on the empty queue, and the selection
case on the two tied sample jobs where position 0 wins the tie. -/
theorem C1_claim_protocol_witness :
    claim_next_available_job "w" 0 3 [] = ([], none) ∧
    (∃ (i : Nat) (j : Job),
      (quarantineSweep 3 [sampleTieJobA, sampleTieJobB])[i]? = some j ∧
      eligibleStatus j.status = true ∧
      (∀ (i' : Nat) (j' : Job),
        (quarantineSweep 3 [sampleTieJobA, sampleTieJobB])[i']? = some j' →
        eligibleStatus j'.status = true →
        j.added_at ≤ j'.added_at ∧ (j'.added_at = j.added_at → i ≤ i')) ∧
      claim_next_available_job "w" 100 3 [sampleTieJobA, sampleTieJobB] =
        ((quarantineSweep 3 [sampleTieJobA, sampleTieJobB]).set i
          (claimUpdate "w" 100 j), some (claimUpdate "w" 100 j))) :=
  ⟨(C1_claim_protocol_amended "w" 0 3 []).1 (by simp [quarantineSweep]),
   (C1_claim_protocol_amended "w" 100 3 [sampleTieJobA, sampleTieJobB]).2.1
      0 sampleTieJobA (by decide) (by decide)⟩
